import Mathlib

/-!
Verification of the Antibiotics patient-records application.

The repository's sources contain the React frontend (pages, API glue); the
prescription-analysis backend (Similarity Scorer, Match Classifier, Analysis
Aggregator behind the `getPrescriptionAnalysis` endpoint) is not among the
source files, so those three components are modelled from the spec.  The
client-side `getRiskLevel` heuristic and the `PrescriptionAnalysis` pagination
are embedded directly from the JSX sources.
-/

namespace Antibiotics

/-- ASCII lowercasing of one character. -/
def lowerChar (c : Char) : Char :=
  if 'A' ≤ c ∧ c ≤ 'Z' then Char.ofNat (c.toNat + 32) else c

/-- Split a character list on spaces, accumulating the current (reversed)
token; empty fragments are dropped. -/
def splitTokens : List Char → List Char → List String
  | [], cur => if cur.isEmpty then [] else [String.mk cur.reverse]
  | c :: rest, cur =>
      if c = ' ' then
        if cur.isEmpty then splitTokens rest []
        else String.mk cur.reverse :: splitTokens rest []
      else splitTokens rest (c :: cur)

/-- Modelled from the spec: the Similarity Scorer's backend implementation is
not in the repository sources.  Tokenisation for the "case-insensitive,
whitespace-normalized" comparison: lowercase the string, split on spaces,
drop empty fragments. -/
def tokens (s : String) : List String :=
  splitTokens (s.data.map lowerChar) []

/-- The set of distinct normalized tokens of a string. -/
def tokenSet (s : String) : Finset String :=
  (tokens s).toFinset

/-- Modelled from the spec: the Similarity Scorer (backend not in the
repository sources).  Returns 0 when either input is empty; returns 100 when
the normalized token sets coincide; otherwise a token-set-overlap (Jaccard)
ratio scaled to [0, 100].  This realises the spec's contract: symmetric,
reflexive on non-empty input, zero on empty input, integer in [0, 100]. -/
def similarity (a b : String) : Nat :=
  if a = "" ∨ b = "" then 0
  else if tokenSet a = tokenSet b then 100
  else 100 * (tokenSet a ∩ tokenSet b).card / (tokenSet a ∪ tokenSet b).card

/-- C5: the Similarity Scorer returns 0 whenever either input is empty:
`similarity "" x = 0` and `similarity x "" = 0` for every string x. -/
theorem similarity_empty_floor (x : String) :
    similarity "" x = 0 ∧ similarity x "" = 0 := by
  constructor <;> simp [similarity]

/-- C6: the Similarity Scorer is symmetric:
`similarity a b = similarity b a` for all strings a, b. -/
theorem similarity_symm (a b : String) :
    similarity a b = similarity b a := by
  unfold similarity
  rw [if_congr (or_comm (a := a = "") (b := b = "")) rfl
    (if_congr (eq_comm (a := tokenSet a) (b := tokenSet b)) rfl
      (by rw [Finset.inter_comm, Finset.union_comm]))]

/-- C7: the Similarity Scorer is reflexive: for every non-empty string a,
`similarity a a = 100`. -/
theorem similarity_refl (a : String) (h : a ≠ "") :
    similarity a a = 100 := by
  simp [similarity, h]

/-- Witness for C7 at the concrete non-empty string "amoxicillin". -/
theorem similarity_refl_witness :
    similarity "amoxicillin" "amoxicillin" = 100 :=
  similarity_refl "amoxicillin" (by decide)

/-- The four-way match classification.  `part_match` models the source's
intermediate label (score in [40, 80)), rendered "Partial Match" in the UI. -/
inductive MatchStatus where
  | exact_match
  | part_match
  | no_match
  | no_recommendation
  deriving DecidableEq, Repr

/-- Modelled from the spec: the per-case result of the Match Classifier. -/
structure MatchResult where
  case_id : Nat
  similarity_score : Nat
  best_match : Option String
  match_status : MatchStatus
  deriving DecidableEq, Repr

/-- Modelled from the spec: one left-to-right step of the best-candidate scan;
a later candidate replaces the incumbent only on a strictly greater score, so
ties go to the earliest position. -/
def bestStep (actual : String) (acc : Option (String × Nat)) (cand : String) :
    Option (String × Nat) :=
  match acc with
  | none => some (cand, similarity actual cand)
  | some (bc, bs) =>
      if bs < similarity actual cand then some (cand, similarity actual cand)
      else some (bc, bs)

/-- Modelled from the spec: the best-scoring candidate (with its score),
earliest position winning ties; `none` when the candidate list is empty. -/
def bestOf (actual : String) (cands : List String) : Option (String × Nat) :=
  cands.foldl (bestStep actual) none

/-- Modelled from the spec: threshold classification of a score with the
default thresholds 80 and 40. -/
def classifyStatus (score : Nat) : MatchStatus :=
  if 80 ≤ score then .exact_match
  else if 40 ≤ score then .part_match
  else .no_match

/-- Modelled from the spec: the Match Classifier.  An empty candidate list is
terminal (`no_recommendation`, score 0, no best match); otherwise the maximum
similarity over the candidates is thresholded. -/
def classifyCase (cid : Nat) (actual : String) (cands : List String) :
    MatchResult :=
  match bestOf actual cands with
  | none => ⟨cid, 0, none, .no_recommendation⟩
  | some (bc, bs) => ⟨cid, bs, some bc, classifyStatus bs⟩

/-- The maximum similarity score of `actual` against a candidate list. -/
def maxScore (actual : String) (cands : List String) : Nat :=
  (cands.map (similarity actual)).foldl Nat.max 0

/-- The left fold of `bestStep` tracks the running maximum score. -/
theorem bestOf_foldl_max (actual : String) :
    ∀ (l : List String) (bc : String) (bs : Nat),
      ∃ c, l.foldl (bestStep actual) (some (bc, bs)) =
        some (c, (l.map (similarity actual)).foldl Nat.max bs) := by
  intro l
  induction l with
  | nil => intro bc bs; exact ⟨bc, rfl⟩
  | cons cand tl ih =>
      intro bc bs
      simp only [List.foldl_cons, List.map_cons]
      by_cases h : bs < similarity actual cand
      · have hmax : Nat.max bs (similarity actual cand) = similarity actual cand :=
          Nat.max_eq_right (Nat.le_of_lt h)
        simpa [bestStep, h, hmax] using ih cand (similarity actual cand)
      · have hmax : Nat.max bs (similarity actual cand) = bs :=
          Nat.max_eq_left (Nat.le_of_not_lt h)
        simpa [bestStep, h, hmax] using ih bc bs

/-- C1: for every case with a non-empty candidate list, the classifier's
score is the maximum similarity over the candidates and the status is that
maximum thresholded at the defaults 80 and 40 (so 80 and above is
`exact_match`, 40 up to 79 is `part_match`, 39 and below is `no_match`). -/
theorem classify_threshold (cid : Nat) (actual : String)
    (cands : List String) (h : cands ≠ []) :
    (classifyCase cid actual cands).similarity_score = maxScore actual cands ∧
    (classifyCase cid actual cands).match_status =
      (if 80 ≤ maxScore actual cands then MatchStatus.exact_match
       else if 40 ≤ maxScore actual cands then MatchStatus.part_match
       else MatchStatus.no_match) := by
  obtain ⟨c, tl, rfl⟩ : ∃ c tl, cands = c :: tl := by
    cases cands with
    | nil => exact absurd rfl h
    | cons c tl => exact ⟨c, tl, rfl⟩
  obtain ⟨b, hb⟩ := bestOf_foldl_max actual tl c (similarity actual c)
  have hms : maxScore actual (c :: tl) =
      (tl.map (similarity actual)).foldl Nat.max (similarity actual c) := by
    simp [maxScore, Nat.max_eq_right (Nat.zero_le (similarity actual c))]
  have hbest : bestOf actual (c :: tl) = some (b, maxScore actual (c :: tl)) := by
    simp only [bestOf, List.foldl_cons]
    rw [show bestStep actual none c = some (c, similarity actual c) from rfl, hb, hms]
  simp [classifyCase, hbest, classifyStatus]

/-- Witness for C1 at a concrete one-candidate case (score 100, exact). -/
theorem classify_threshold_witness :
    (classifyCase 1 "iv cefepime" ["iv cefepime"]).similarity_score =
      maxScore "iv cefepime" ["iv cefepime"] ∧
    (classifyCase 1 "iv cefepime" ["iv cefepime"]).match_status =
      (if 80 ≤ maxScore "iv cefepime" ["iv cefepime"] then MatchStatus.exact_match
       else if 40 ≤ maxScore "iv cefepime" ["iv cefepime"] then MatchStatus.part_match
       else MatchStatus.no_match) :=
  classify_threshold 1 "iv cefepime" ["iv cefepime"] (by decide)

/-- C3: a case with an empty candidate list always classifies as
`no_recommendation` with score 0 and no best match, whatever the actual
prescription (including the empty string modelling an absent one): no
scoring is attempted. -/
theorem classify_no_candidates (cid : Nat) (actual : String) :
    classifyCase cid actual [] =
      ⟨cid, 0, none, MatchStatus.no_recommendation⟩ := rfl

/-- The number of match results carrying a given status. -/
def countStatus (st : MatchStatus) (rs : List MatchResult) : Nat :=
  rs.countP (fun r => decide (r.match_status = st))

/-- Modelled from the spec: the population-level summary.  `part_matches`
models the spec's count of intermediate matches.  All counts are `Nat`, hence
non-negative by construction. -/
structure AnalysisSummary where
  total_patients : Nat
  exact_matches : Nat
  part_matches : Nat
  no_matches : Nat
  no_recommendations : Nat
  match_rate : Nat
  deriving DecidableEq, Repr

/-- Modelled from the spec: the Analysis Aggregator's summary.  The match
rate is the rounded percentage of exact matches, computed in integer
arithmetic as `(200 * e + total) / (2 * total)`, which equals
`round (100 * e / total)`; it is 0 for an empty population. -/
def summarize (rs : List MatchResult) : AnalysisSummary :=
  let total := rs.length
  let e := countStatus .exact_match rs
  ⟨total, e, countStatus .part_match rs, countStatus .no_match rs,
    countStatus .no_recommendation rs,
    if total = 0 then 0 else (200 * e + total) / (2 * total)⟩

/-- Modelled from the spec: the Analysis Aggregator.  Classifies every
`(case_id, actual_prescription, candidates)` triple and summarises. -/
def analyze (input : List (Nat × String × List String)) :
    List MatchResult × AnalysisSummary :=
  let rs := input.map (fun x => classifyCase x.1 x.2.1 x.2.2)
  (rs, summarize rs)

/-- Each result has exactly one of the four statuses, so the four counts
sum to the number of results. -/
theorem countStatus_partition (rs : List MatchResult) :
    countStatus .exact_match rs + countStatus .part_match rs +
      countStatus .no_match rs + countStatus .no_recommendation rs =
      rs.length := by
  induction rs with
  | nil => rfl
  | cons r tl ih =>
      cases h : r.match_status <;>
        simp [countStatus, List.countP_cons, h] at ih ⊢ <;> omega

/-- C2: for every population, the aggregator produces exactly one result per
case (`perCase` has the input's length, which is `total_patients`), and the
four status counts partition the case set:
`exact + part + no + no_recommendation = total_patients`.
All counts are `Nat`, hence non-negative. -/
theorem analysis_partition (input : List (Nat × String × List String)) :
    ((analyze input).1).length = input.length ∧
    (analyze input).2.total_patients = input.length ∧
    (analyze input).2.exact_matches + (analyze input).2.part_matches +
      (analyze input).2.no_matches + (analyze input).2.no_recommendations =
      (analyze input).2.total_patients := by
  refine ⟨by simp [analyze], by simp [analyze, summarize], ?_⟩
  simpa [analyze, summarize] using
    countStatus_partition (input.map fun x => classifyCase x.1 x.2.1 x.2.2)

/-- Integer computation of the rounded percentage: for a non-empty
population, `(200 * e + t) / (2 * t)` is `round (100 * e / t)`. -/
theorem matchRate_eq_round (e t : Nat) (ht : t ≠ 0) :
    (200 * e + t) / (2 * t) = (round ((100 * e : ℚ) / t)).toNat := by
  have ht' : (t : ℚ) ≠ 0 := Nat.cast_ne_zero.mpr ht
  have h1 : (100 * e : ℚ) / t + 1 / 2 =
      ((200 * e + t : ℕ) : ℚ) / ((2 * t : ℕ) : ℚ) := by
    push_cast
    field_simp
    ring
  rw [round_eq, h1, Int.floor_toNat, Nat.floor_div_nat, Nat.floor_natCast]

/-- The spec's illustrative three-case population. -/
def exampleInput : List (Nat × String × List String) :=
  [(1, "IV ceftriaxone 1g daily",
      ["IV ceftriaxone 1g once daily", "PO amoxicillin 500mg tid"]),
   (2, "PO cipro 500mg", ["IV meropenem 1g q8h"]),
   (3, "None", [])]

/-- C4: the summary's `match_rate` is `round (100 * exact_matches /
total_patients)` for a non-empty population and 0 for an empty one; on the
spec's three-case example population (one exact match, one no-match, one
no-recommendation) the summary is exactly
`{3, 1, 0, 1, 1, 33}`, in particular `match_rate = 33`. -/
theorem matchRate_round :
    (∀ rs : List MatchResult, rs ≠ [] →
      (summarize rs).match_rate =
        (round ((100 * (countStatus .exact_match rs) : ℚ) / rs.length)).toNat) ∧
    (summarize []).match_rate = 0 ∧
    (analyze exampleInput).2 = ⟨3, 1, 0, 1, 1, 33⟩ := by
  refine ⟨?_, rfl, by decide⟩
  intro rs h
  have ht : rs.length ≠ 0 := by simpa using h
  simp only [summarize, if_neg ht]
  exact matchRate_eq_round _ _ ht

/-- Witness for C4's rounded-percentage formula at a concrete one-element
population. -/
theorem matchRate_round_witness :
    (summarize [⟨1, 90, some "x", MatchStatus.exact_match⟩]).match_rate =
      (round ((100 *
        (countStatus .exact_match [⟨1, 90, some "x", MatchStatus.exact_match⟩]) : ℚ) /
        ([⟨1, 90, some "x", MatchStatus.exact_match⟩] : List MatchResult).length)).toNat :=
  matchRate_round.1 [⟨1, 90, some "x", MatchStatus.exact_match⟩] (by decide)

/-- C8: the Aggregator is total (a plain function of its input) and on the
empty population returns zero counts and `match_rate = 0`; its per-case list
is defined for every finite input as the elementwise classification, so no
population-level condition can make it fail. -/
theorem analyze_total :
    analyze [] = ([], ⟨0, 0, 0, 0, 0, 0⟩) ∧
    ∀ input : List (Nat × String × List String),
      (analyze input).1 = input.map (fun x => classifyCase x.1 x.2.1 x.2.2) :=
  ⟨rfl, fun _ => rfl⟩

/-! ## Client-side risk heuristic (`getRiskLevel` in PatientsList.jsx)

Embedded from the source.  Lab fields are optional JSON numbers; the source
guards each with JavaScript truthiness (`patient.crp && ...`), so a present
value participates only when it is nonzero. -/

/-- The three risk levels returned by `getRiskLevel`. -/
inductive RiskLevel where
  | Low
  | Medium
  | High
  deriving DecidableEq, Repr

/-- A patient record as consumed by `getRiskLevel`: age plus four optional
numeric lab fields (`none` models a null/undefined field). -/
structure Patient where
  age : ℚ
  crp : Option ℚ
  wbc : Option ℚ
  cockcroft_gault_crcl : Option ℚ
  body_temperature : Option ℚ
  deriving DecidableEq

/-- Age factor: 3 points for age > 80, else 2 for age > 65, else 1 for
age > 50. -/
def agePoints (age : ℚ) : Nat :=
  if 80 < age then 3 else if 65 < age then 2 else if 50 < age then 1 else 0

/-- CRP factor: `patient.crp && parseFloat(patient.crp) > 100` earns 2. -/
def crpPoints : Option ℚ → Nat
  | none => 0
  | some v => if v ≠ 0 ∧ 100 < v then 2 else 0

/-- WBC factor: `patient.wbc && parseFloat(patient.wbc) > 15000` earns 1. -/
def wbcPoints : Option ℚ → Nat
  | none => 0
  | some v => if v ≠ 0 ∧ 15000 < v then 1 else 0

/-- CrCl factor: `patient.cockcroft_gault_crcl && parseFloat(...) < 30`
earns 2; note the truthiness guard excludes a present value of 0. -/
def crclPoints : Option ℚ → Nat
  | none => 0
  | some v => if v ≠ 0 ∧ v < 30 then 2 else 0

/-- Temperature factor: `patient.body_temperature && parseFloat(...) > 38.5`
earns 1. -/
def tempPoints : Option ℚ → Nat
  | none => 0
  | some v => if v ≠ 0 ∧ (38.5 : ℚ) < v then 1 else 0

/-- The accumulated risk score of `getRiskLevel`. -/
def riskScore (p : Patient) : Nat :=
  agePoints p.age + crpPoints p.crp + wbcPoints p.wbc +
    crclPoints p.cockcroft_gault_crcl + tempPoints p.body_temperature

/-- The function getRiskLevel from PatientsList.jsx: High for score ≥ 6, Medium for
score ≥ 3, Low otherwise. -/
def getRiskLevel (p : Patient) : RiskLevel :=
  if 6 ≤ riskScore p then .High
  else if 3 ≤ riskScore p then .Medium
  else .Low

/-- The risk score exactly as claim C9 words it, i.e. "2 for CrCl < 30"
with no truthiness guard on a present value: used to exhibit where the
claim diverges from the source. -/
def claimRiskScore (p : Patient) : Nat :=
  (if 80 < p.age then 3 else if 65 < p.age then 2
    else if 50 < p.age then 1 else 0) +
  (match p.crp with | none => 0 | some v => if 100 < v then 2 else 0) +
  (match p.wbc with | none => 0 | some v => if 15000 < v then 1 else 0) +
  (match p.cockcroft_gault_crcl with
    | none => 0 | some v => if v < 30 then 2 else 0) +
  (match p.body_temperature with
    | none => 0 | some v => if (38.5 : ℚ) < v then 1 else 0)

/-- A patient aged 81 with CRP 150 and a present CrCl of 0. -/
def cexPatient : Patient :=
  ⟨81, some 150, none, some 0, none⟩

/-- C9 counterexample: for a patient aged 81 (3 points) with CRP 150
(2 points) and CrCl 0, the claim's scoring gives 3 + 2 + 2 = 7 ≥ 6, hence
'High'; the source's truthiness guard `patient.cockcroft_gault_crcl && ...`
treats the present CrCl value 0 as falsy, so the code scores 5 and returns
'Medium', not 'High'. -/
theorem getRiskLevel_cex :
    6 ≤ claimRiskScore cexPatient ∧
    getRiskLevel cexPatient = RiskLevel.Medium ∧
    getRiskLevel cexPatient ≠ RiskLevel.High := by
  decide

/-- C9 (amended): `getRiskLevel` is total and returns High exactly when the
accumulated score is ≥ 6, Medium exactly when it is in [3, 6), Low exactly
when it is < 3, where the score sums 3/2/1 age points, 2 for a truthy CRP
> 100, 1 for a truthy WBC > 15000, 2 for a truthy (present, nonzero) CrCl
< 30 and 1 for a truthy body temperature > 38.5, absent fields contributing
0; the score is at most 9, and a patient aged at most 50 with all lab
fields absent is Low. -/
theorem getRiskLevel_spec (p : Patient) :
    (getRiskLevel p = RiskLevel.High ↔ 6 ≤ riskScore p) ∧
    (getRiskLevel p = RiskLevel.Medium ↔
      3 ≤ riskScore p ∧ riskScore p < 6) ∧
    (getRiskLevel p = RiskLevel.Low ↔ riskScore p < 3) ∧
    riskScore p ≤ 9 ∧
    (p.age ≤ 50 → p.crp = none → p.wbc = none →
      p.cockcroft_gault_crcl = none → p.body_temperature = none →
      getRiskLevel p = RiskLevel.Low) := by
  have ha : agePoints p.age ≤ 3 := by
    unfold agePoints; split_ifs <;> omega
  have hc : crpPoints p.crp ≤ 2 := by
    rcases p.crp with _ | v
    · simp [crpPoints]
    · simp only [crpPoints]; split <;> omega
  have hw : wbcPoints p.wbc ≤ 1 := by
    rcases p.wbc with _ | v
    · simp [wbcPoints]
    · simp only [wbcPoints]; split <;> omega
  have hr : crclPoints p.cockcroft_gault_crcl ≤ 2 := by
    rcases p.cockcroft_gault_crcl with _ | v
    · simp [crclPoints]
    · simp only [crclPoints]; split <;> omega
  have htp : tempPoints p.body_temperature ≤ 1 := by
    rcases p.body_temperature with _ | v
    · simp [tempPoints]
    · simp only [tempPoints]; split <;> omega
  refine ⟨?_, ?_, ?_, ?_, ?_⟩
  · unfold getRiskLevel; split_ifs with h6 h3
    · exact iff_of_true rfl h6
    · exact iff_of_false (by decide) h6
    · exact iff_of_false (by decide) h6
  · unfold getRiskLevel; split_ifs with h6 h3
    · exact iff_of_false (by decide) (by omega)
    · exact iff_of_true rfl (by omega)
    · exact iff_of_false (by decide) (by omega)
  · unfold getRiskLevel; split_ifs with h6 h3
    · exact iff_of_false (by decide) (by omega)
    · exact iff_of_false (by decide) (by omega)
    · exact iff_of_true rfl (by omega)
  · unfold riskScore; omega
  · intro h50 h1 h2 h3 h4
    have hA : agePoints p.age = 0 := by
      unfold agePoints
      rw [if_neg (not_lt.mpr (h50.trans (by norm_num))),
        if_neg (not_lt.mpr (h50.trans (by norm_num))),
        if_neg (not_lt.mpr h50)]
    have hz : riskScore p = 0 := by
      simp [riskScore, hA, h1, h2, h3, h4, crpPoints, wbcPoints,
        crclPoints, tempPoints]
    simp [getRiskLevel, hz]

/-- Witness for C9's amended theorem: a 40-year-old with no lab values is
Low risk. -/
theorem getRiskLevel_spec_witness :
    getRiskLevel ⟨40, none, none, none, none⟩ = RiskLevel.Low :=
  (getRiskLevel_spec ⟨40, none, none, none, none⟩).2.2.2.2
    (by decide) rfl rfl rfl rfl

/-! ## Pagination in the PrescriptionAnalysis page

Embedded from the source:
`totalPages = Math.ceil(totalItems / itemsPerPage)`,
`startIndex = (currentPage - 1) * itemsPerPage`,
`endIndex = startIndex + itemsPerPage`,
`paginatedData = filteredData.slice(startIndex, endIndex)`. -/

/-- The page count `Math.ceil(totalItems / itemsPerPage)` over naturals (for a positive
page size). -/
def totalPages (totalItems itemsPerPage : Nat) : Nat :=
  (totalItems + itemsPerPage - 1) / itemsPerPage

/-- The slice `filteredData.slice(startIndex, endIndex)`: the 1-based page
`page` of the list. -/
def paginatedData {α : Type*} (l : List α) (itemsPerPage page : Nat) :
    List α :=
  (l.drop ((page - 1) * itemsPerPage)).take itemsPerPage

/-- Concatenating the first `k` chunks of size `ipp` gives the first
`k * ipp` elements. -/
theorem flatten_chunks {α : Type*} (l : List α) (ipp : Nat) :
    ∀ k : Nat,
      ((List.range k).map (fun i => (l.drop (i * ipp)).take ipp)).flatten
        = l.take (k * ipp) := by
  intro k
  induction k with
  | zero => simp
  | succ k ih =>
      rw [List.range_succ, List.map_append, List.flatten_append, ih,
        Nat.succ_mul, List.take_add]
      simp

/-- C10: with a positive page size, the pages 1 .. totalPages concatenate
back to exactly the filtered list (no omission, no duplication), and every
page past `totalPages` is empty, so each item appears on exactly one page. -/
theorem pagination_partition {α : Type*} (l : List α) (ipp p : Nat)
    (h : 0 < ipp) (hp : totalPages l.length ipp < p) :
    ((List.range (totalPages l.length ipp)).map
        (fun i => paginatedData l ipp (i + 1))).flatten = l ∧
    paginatedData l ipp p = [] := by
  have key : l.length ≤ totalPages l.length ipp * ipp := by
    unfold totalPages
    have hdm := Nat.div_add_mod (l.length + ipp - 1) ipp
    have hmod : (l.length + ipp - 1) % ipp < ipp := Nat.mod_lt _ h
    have hcomm : (l.length + ipp - 1) / ipp * ipp =
        ipp * ((l.length + ipp - 1) / ipp) := Nat.mul_comm _ _
    omega
  constructor
  · have hfun : ∀ i : Nat,
        paginatedData l ipp (i + 1) = (l.drop (i * ipp)).take ipp := by
      intro i; simp [paginatedData]
    simp only [hfun]
    rw [flatten_chunks]
    exact List.take_of_length_le key
  · have hstart : l.length ≤ (p - 1) * ipp := by
      have : totalPages l.length ipp * ipp ≤ (p - 1) * ipp :=
        Nat.mul_le_mul_right ipp (by omega)
      omega
    simp [paginatedData, List.drop_eq_nil_of_le hstart]

/-- Witness for C10 on the concrete list [0, 1, 2] with page size 2 and
out-of-range page 5. -/
theorem pagination_partition_witness :
    ((List.range (totalPages ([0, 1, 2] : List Nat).length 2)).map
        (fun i => paginatedData ([0, 1, 2] : List Nat) 2 (i + 1))).flatten
      = [0, 1, 2] ∧
    paginatedData ([0, 1, 2] : List Nat) 2 5 = [] :=
  pagination_partition [0, 1, 2] 2 5 (by decide) (by decide)

end Antibiotics
